import Mathlib

/-!
Verification of the Inspiro media-gallery application core.

This file shallowly embeds the state-machine, navigation and filtering logic
of the two application variants found in the repository:

* variant 1 (the mock-data path, `src/minimized.tsx`): `handleCardClickV1`,
  `handleNextV1`, `handlePrevV1`, `handleMinimizeMedia`, `handleRestoreMedia`;
* variant 2 (the remote-API path, the `App` component embedded in
  `src/types.ts`): `handleCardClickV2`, `handleNavigateV2`.

The live transport state (isPlaying / elapsed seconds) of the corner player
lives in the `MinimizedPlayer` component; its setup effect is keyed on the
active post identifier (`useEffect(..., [post._id, isMedia])`), which we
model with `runEffects`.
-/

namespace Inspiro

/-- The `PostType` enum from `src/types.ts`. -/
inductive PostType where
  | image
  | video
  | audio
  | note
  | quote
deriving DecidableEq, Repr, BEq

/-- The `Post` interface from `src/types.ts`.  Optional fields are `Option`;
`initialTime` is the resume-time hint in seconds. -/
structure Post where
  _id : String
  createdAt : String := ""
  title : String := ""
  type : PostType
  description : Option String := none
  fileUrl : Option String := none
  coverUrl : Option String := none
  noteText : Option String := none
  quoteText : Option String := none
  source : Option String := none
  tags : Option (List String) := none
  initialTime : Option Nat := none
deriving DecidableEq, Repr

/-- `isMediaPost` from both variants:
`(type) => [PostType.Audio, PostType.Video].includes(type)`. -/
def isMediaPost (t : PostType) : Bool :=
  [PostType.audio, PostType.video].contains t

/-- Display mode of the active media item (`'modal' | 'minimized'`). -/
inductive MediaMode where
  | modal
  | minimized
deriving DecidableEq, Repr

/-- `ActiveMediaState` (non-null part): `{post, index, mode, currentTime?}`. -/
structure MediaState where
  post : Post
  index : Nat
  mode : MediaMode
  currentTime : Option Nat
deriving DecidableEq, Repr

/-- `ActiveModalState` (non-null part): `{post, index}`. -/
structure ModalState where
  post : Post
  index : Nat
deriving DecidableEq, Repr

/-- The transport state held by the `MinimizedPlayer` component:
`isPlaying` and the elapsed seconds (`currentTime` component state),
together with the `_id` of the post the setup effect last ran for
(the effect is keyed on `post._id`). -/
structure PlayerState where
  isPlaying : Bool
  elapsed : Nat
  forPost : String
deriving DecidableEq, Repr

/-- The application state relevant to the claims: the two active-item slots
(`activeMedia`, `activeModal`) plus the mounted player's transport state
(`player = none` when no `MinimizedPlayer` is mounted). -/
structure AppState where
  activeMedia : Option MediaState := none
  activeModal : Option ModalState := none
  player : Option PlayerState := none
deriving DecidableEq, Repr

/-- The initial application state: nothing active, no player mounted. -/
def initState : AppState := {}

/-- `filteredPosts.findIndex(p => p._id === post._id)` (both variants),
returning `none` for `-1`. -/
def findIndexById (L : List Post) (post : Post) : Option Nat :=
  L.findIdx? (fun p => p._id == post._id)

/-- The `de facto` semantics of the `MinimizedPlayer` effects after a state
update: the player unmounts when `activeMedia` becomes null; the setup
effect (keyed on `post._id`) reinitialises the transport to
`isPlaying = true, elapsed = currentTime hint` exactly when the component
mounts fresh or the active post identity changed; otherwise the live
transport is untouched. -/
def runEffects (s : AppState) : AppState :=
  match s.activeMedia with
  | none => { s with player := none }
  | some m =>
    match s.player with
    | some pl =>
      if pl.forPost = m.post._id then s
      else { s with player := some ⟨true, m.currentTime.getD 0, m.post._id⟩ }
    | none => { s with player := some ⟨true, m.currentTime.getD 0, m.post._id⟩ }

/-- `handleCardClick` of variant 1 (`src/minimized.tsx`), without the
player effects. -/
def handleCardClickV1 (L : List Post) (post : Post) (s : AppState) : AppState :=
  match findIndexById L post with
  | none => s
  | some index =>
    if isMediaPost post.type then
      { s with
        activeMedia :=
          match s.activeMedia with
          | some prev =>
            if prev.post._id = post._id ∧ prev.mode = MediaMode.minimized then
              some { prev with mode := MediaMode.modal }
            else
              some ⟨post, index, MediaMode.modal, some (post.initialTime.getD 0)⟩
          | none => some ⟨post, index, MediaMode.modal, some (post.initialTime.getD 0)⟩,
        activeModal := none }
    else
      { s with activeModal := some ⟨post, index⟩ }

/-- Card click of variant 1 followed by the player effects. -/
def clickOpV1 (L : List Post) (post : Post) (s : AppState) : AppState :=
  runEffects (handleCardClickV1 L post s)

/-- `handleMinimizeMedia` of variant 1 followed by the player effects. -/
def minimizeOp (s : AppState) : AppState :=
  runEffects { s with
    activeMedia := s.activeMedia.map (fun m => { m with mode := MediaMode.minimized }) }

/-- `handleRestoreMedia` of variant 1 followed by the player effects. -/
def restoreOp (s : AppState) : AppState :=
  runEffects { s with
    activeMedia := s.activeMedia.map (fun m => { m with mode := MediaMode.modal }) }

/-- `handleCloseMedia` followed by the player effects (player unmounts). -/
def closeMediaOp (s : AppState) : AppState :=
  runEffects { s with activeMedia := none }

/-- `handleCloseModal` followed by the player effects. -/
def closeModalOp (s : AppState) : AppState :=
  runEffects { s with activeModal := none }

/-- The `timeupdate` reconciliation: the playback clock reports the current
elapsed seconds into the player component state. -/
def reportElapsedOp (t : Nat) (s : AppState) : AppState :=
  match s.activeMedia, s.player with
  | some _, some pl => { s with player := some { pl with elapsed := t } }
  | _, _ => s

/-- `togglePlay` of the `MinimizedPlayer` component: flips `isPlaying`. -/
def togglePlayOp (s : AppState) : AppState :=
  match s.activeMedia, s.player with
  | some _, some pl => { s with player := some { pl with isPlaying := !pl.isPlaying } }
  | _, _ => s

/-- `handleNext` of variant 1.  The current index is
`activeMedia?.index ?? activeModal?.index`; the guard is
`currentIndex >= filteredPosts.length - 1` (JS number arithmetic, hence the
`Int` comparison); a successful step reads `filteredPosts[newIndex]` and
dereferences it without a null check, so a missing element is an uncaught
`TypeError`, modelled as `none`. -/
def currentIndexV1 (s : AppState) : Option Nat :=
  match s.activeMedia with
  | some m => some m.index
  | none => s.activeModal.map (fun md => md.index)

def handleNextV1 (L : List Post) (s : AppState) : Option AppState :=
  match currentIndexV1 s with
  | none => some s
  | some p =>
    if (p : Int) ≥ (L.length : Int) - 1 then some s
    else
      match L.get? (p + 1) with
      | none => none
      | some nextPost =>
        if isMediaPost nextPost.type then
          some { s with activeMedia := some ⟨nextPost, p + 1, MediaMode.modal, some 0⟩,
                        activeModal := none }
        else
          some { s with activeModal := some ⟨nextPost, p + 1⟩ }

/-- `handlePrev` of variant 1; the guard is `currentIndex <= 0`. -/
def handlePrevV1 (L : List Post) (s : AppState) : Option AppState :=
  match currentIndexV1 s with
  | none => some s
  | some p =>
    if (p : Int) ≤ 0 then some s
    else
      match L.get? (p - 1) with
      | none => none
      | some prevPost =>
        if isMediaPost prevPost.type then
          some { s with activeMedia := some ⟨prevPost, p - 1, MediaMode.modal, some 0⟩,
                        activeModal := none }
        else
          some { s with activeModal := some ⟨prevPost, p - 1⟩ }

/-- Variant 1 `handleNext` followed by the player effects. -/
def navNextOpV1 (L : List Post) (s : AppState) : Option AppState :=
  (handleNextV1 L s).map runEffects

/-- Variant 1 `handlePrev` followed by the player effects. -/
def navPrevOpV1 (L : List Post) (s : AppState) : Option AppState :=
  (handlePrevV1 L s).map runEffects

/-- `handleCardClick` of variant 2 (the remote-API `App` in `src/types.ts`).
The media branch is identical to variant 1; the non-media branch
additionally minimizes an active media item that is in `'modal'` mode. -/
def handleCardClickV2 (L : List Post) (post : Post) (s : AppState) : AppState :=
  match findIndexById L post with
  | none => s
  | some index =>
    if isMediaPost post.type then
      { s with
        activeMedia :=
          match s.activeMedia with
          | some prev =>
            if prev.post._id = post._id ∧ prev.mode = MediaMode.minimized then
              some { prev with mode := MediaMode.modal }
            else
              some ⟨post, index, MediaMode.modal, some (post.initialTime.getD 0)⟩
          | none => some ⟨post, index, MediaMode.modal, some (post.initialTime.getD 0)⟩,
        activeModal := none }
    else
      match s.activeMedia with
      | some m =>
        if m.mode = MediaMode.modal then
          { s with activeModal := some ⟨post, index⟩,
                   activeMedia := some { m with mode := MediaMode.minimized } }
        else { s with activeModal := some ⟨post, index⟩ }
      | none => { s with activeModal := some ⟨post, index⟩ }

/-- Card click of variant 2 followed by the player effects. -/
def clickOpV2 (L : List Post) (post : Post) (s : AppState) : AppState :=
  runEffects (handleCardClickV2 L post s)

/-- Navigation direction argument of variant 2's `handleNavigate`. -/
inductive NavDir where
  | next
  | prev
deriving DecidableEq, Repr

/-- `handleNavigate` of variant 2.  The current item is
`activeMedia?.mode === 'modal' ? activeMedia : activeModal`; the new index
is fully bounds-checked (`newIndex < 0 || newIndex >= filteredPosts.length`)
before the list is read, so this handler never throws. -/
def currentIndexV2 (s : AppState) : Option Nat :=
  match s.activeMedia with
  | some m =>
    if m.mode = MediaMode.modal then some m.index
    else s.activeModal.map (fun md => md.index)
  | none => s.activeModal.map (fun md => md.index)

/-- The new index computed by variant 2's `handleNavigate`. -/
def newIndexV2 (dir : NavDir) (p : Nat) : Int :=
  if dir = NavDir.next then (p : Int) + 1 else (p : Int) - 1

def handleNavigateV2 (dir : NavDir) (L : List Post) (s : AppState) : AppState :=
  match currentIndexV2 s with
  | none => s
  | some p =>
    if newIndexV2 dir p < 0 ∨ newIndexV2 dir p ≥ (L.length : Int) then s
    else
      match L.get? (newIndexV2 dir p).toNat with
      | none => s
      | some newPost =>
        if isMediaPost newPost.type then
          { s with
            activeMedia := some ⟨newPost, (newIndexV2 dir p).toNat, MediaMode.modal, some 0⟩,
            activeModal := none }
        else
          match s.activeMedia with
          | some m =>
            if m.mode = MediaMode.modal then
              { s with activeModal := some ⟨newPost, (newIndexV2 dir p).toNat⟩,
                       activeMedia := some { m with mode := MediaMode.minimized } }
            else { s with activeModal := some ⟨newPost, (newIndexV2 dir p).toNat⟩ }
          | none => { s with activeModal := some ⟨newPost, (newIndexV2 dir p).toNat⟩ }

/-- Variant 2 navigation followed by the player effects. -/
def navOpV2 (dir : NavDir) (L : List Post) (s : AppState) : AppState :=
  runEffects (handleNavigateV2 dir L s)

/-! ## The navigation step extracted from variant 1's handlers

`navStepNext`/`navStepPrev` are the position logic of `handleNext` and
`handlePrev` in isolation, over an arbitrary (possibly out-of-range) JS
number position, so that the boundary behavior can be stated for every
integer position. -/

/-- JS array indexing `L[i]`: `undefined` (`none`) when `i` is negative or
past the end. -/
def jsIndex (L : List Post) (i : Int) : Option Post :=
  if i < 0 then none else L.get? i.toNat

/-- Result of one navigation step: no-op, an uncaught `TypeError` (the code
dereferences `filteredPosts[newIndex].type` without a null check), or a move
to the given position and item. -/
inductive NavResult where
  | noop
  | crash
  | goto (index : Int) (post : Post)
deriving DecidableEq, Repr

/-- The position logic of variant 1's `handleNext`:
no-op when `p >= L.length - 1`, otherwise read `L[p+1]` and dereference. -/
def navStepNext (L : List Post) (p : Int) : NavResult :=
  if p ≥ (L.length : Int) - 1 then NavResult.noop
  else
    match jsIndex L (p + 1) with
    | none => NavResult.crash
    | some post => NavResult.goto (p + 1) post

/-- The position logic of variant 1's `handlePrev`:
no-op when `p <= 0`, otherwise read `L[p-1]` and dereference. -/
def navStepPrev (L : List Post) (p : Int) : NavResult :=
  if p ≤ 0 then NavResult.noop
  else
    match jsIndex L (p - 1) with
    | none => NavResult.crash
    | some post => NavResult.goto (p - 1) post

/-! ## The search filter (`filteredPosts`, identical in both variants) -/

/-- Substring test on character lists: JS `hay.includes(ned)`. -/
def containsSub (ned : List Char) : List Char → Bool
  | [] => ned.isPrefixOf []
  | c :: t => ned.isPrefixOf (c :: t) || containsSub ned t

/-- JS `hay.includes(ned)` on strings. -/
def jsIncludes (hay ned : String) : Bool :=
  containsSub ned.data hay.data

/-- JS `s.toLowerCase()` (simple character-wise lowering). -/
def toLowerCaseJs (s : String) : String :=
  ⟨s.data.map Char.toLower⟩

/-- One optional-field conjunct of the filter predicate:
`(field && field.toLowerCase().includes(lowercasedQuery))` — a missing or
empty (falsy) field contributes nothing. -/
def fieldHit (field : Option String) (lq : String) : Bool :=
  match field with
  | none => false
  | some s => (!(s = "")) && jsIncludes (toLowerCaseJs s) lq

/-- The filter predicate applied to one post, with the query already
lowercased. -/
def postMatches (p : Post) (lq : String) : Bool :=
  jsIncludes (toLowerCaseJs p.title) lq
    || fieldHit p.description lq
    || fieldHit p.noteText lq
    || fieldHit p.quoteText lq

/-- `filteredPosts` from both variants: the full list when the query is
falsy (empty), otherwise `posts.filter(...)` against the lowercased query. -/
def filteredPosts (posts : List Post) (query : String) : List Post :=
  if query = "" then posts
  else posts.filter (fun p => postMatches p (toLowerCaseJs query))

/-- The filter predicate as the specification words it: the post matches
when its title, description, note body, or quote text contains the query
case-insensitively; absent fields contribute nothing. -/
def matchesCI (p : Post) (q : String) : Bool :=
  jsIncludes (toLowerCaseJs p.title) (toLowerCaseJs q)
    || (match p.description with
        | none => false
        | some s => jsIncludes (toLowerCaseJs s) (toLowerCaseJs q))
    || (match p.noteText with
        | none => false
        | some s => jsIncludes (toLowerCaseJs s) (toLowerCaseJs q))
    || (match p.quoteText with
        | none => false
        | some s => jsIncludes (toLowerCaseJs s) (toLowerCaseJs q))

/-! ## Reachability and state consistency -/

/-- A state is consistent when the mounted player is exactly the one set up
for the current active media post (the fixpoints of `runEffects`). -/
def consistentB (s : AppState) : Bool :=
  match s.activeMedia, s.player with
  | none, none => true
  | some m, some pl => pl.forPost == m.post._id
  | _, _ => false

/-- States reachable from the initial state through the variant-1 handlers
(over arbitrary filtered lists and clicked posts) and the player-driven
transport reconciliation events. -/
inductive Reachable : AppState → Prop where
  | init : Reachable initState
  | click (L : List Post) (post : Post) (s : AppState) :
      Reachable s → Reachable (clickOpV1 L post s)
  | nxt (L : List Post) (s s' : AppState) :
      Reachable s → navNextOpV1 L s = some s' → Reachable s'
  | prv (L : List Post) (s s' : AppState) :
      Reachable s → navPrevOpV1 L s = some s' → Reachable s'
  | minim (s : AppState) : Reachable s → Reachable (minimizeOp s)
  | restoreStep (s : AppState) : Reachable s → Reachable (restoreOp s)
  | closeMedia (s : AppState) : Reachable s → Reachable (closeMediaOp s)
  | closeModal (s : AppState) : Reachable s → Reachable (closeModalOp s)
  | elapsedTick (t : Nat) (s : AppState) : Reachable s → Reachable (reportElapsedOp t s)
  | toggle (s : AppState) : Reachable s → Reachable (togglePlayOp s)

/-! ## Concrete items for witnesses and counterexamples -/

/-- A concrete playable (audio) post. -/
def audioP : Post := { _id := "a1", title := "Song", type := PostType.audio }

/-- A second concrete playable (video) post. -/
def videoP : Post := { _id := "v1", title := "Clip", type := PostType.video }

/-- A concrete non-playable (note) post. -/
def noteP : Post := { _id := "n1", title := "Memo", type := PostType.note }

/-- A small concrete catalog. -/
def demoL : List Post := [audioP, noteP, videoP]

/-- A second small catalog with two playable posts in a row. -/
def demoL2 : List Post := [audioP, videoP]

/-- A post whose identifier occurs nowhere in `demoL`. -/
def strangerP : Post := { _id := "zz", title := "Other", type := PostType.image }

/-! ## Helper lemmas -/

theorem runEffects_activeMedia (s : AppState) :
    (runEffects s).activeMedia = s.activeMedia := by
  obtain ⟨am, amod, pls⟩ := s
  cases am with
  | none => rfl
  | some m =>
    cases pls with
    | none => rfl
    | some pl =>
      simp only [runEffects]
      split <;> rfl

theorem runEffects_activeModal (s : AppState) :
    (runEffects s).activeModal = s.activeModal := by
  obtain ⟨am, amod, pls⟩ := s
  cases am with
  | none => rfl
  | some m =>
    cases pls with
    | none => rfl
    | some pl =>
      simp only [runEffects]
      split <;> rfl

theorem runEffects_consistent (s : AppState) (h : consistentB s = true) :
    runEffects s = s := by
  obtain ⟨am, amod, pls⟩ := s
  cases am with
  | none =>
    cases pls with
    | none => rfl
    | some pl => simp [consistentB] at h
  | some m =>
    cases pls with
    | none => simp [consistentB] at h
    | some pl =>
      simp only [consistentB, beq_iff_eq] at h
      simp [runEffects, h]

theorem findIndexById_eq_none (L : List Post) (post : Post)
    (h : ∀ q ∈ L, q._id ≠ post._id) : findIndexById L post = none := by
  rw [findIndexById, List.findIdx?_eq_none_iff]
  intro x hx
  simpa using h x hx


/-- Claim C1: for an Open playable active item whose mounted player holds
transport state `elapsed = E, isPlaying = P`, minimize followed by restore
yields an Open active item on the same post with the transport unchanged;
minimize itself changes only the display mode and never pauses or resets
playback. -/
theorem C1_minimize_restore_preserves_transport
    (s : AppState) (m : MediaState) (pl : PlayerState)
    (hm : s.activeMedia = some m) (hpl : s.player = some pl)
    (hc : pl.forPost = m.post._id) :
    minimizeOp s =
      { s with activeMedia := some { m with mode := MediaMode.minimized } } ∧
    restoreOp (minimizeOp s) =
      { s with activeMedia := some { m with mode := MediaMode.modal } } ∧
    (restoreOp (minimizeOp s)).player = some pl := by
  obtain ⟨am, amod, pls⟩ := s
  subst hm; subst hpl
  simp [minimizeOp, restoreOp, runEffects, hc]

/-- Claim C5: from an Open playable active item with any prior transport
state, a successful navigate next (or prev) to a new playable item yields
display mode FullScreen (`'modal'`) with the transport reset to
`elapsed = 0, isPlaying = true`. -/
theorem C5_navigation_resets_transport
    (L : List Post) (s : AppState) (m : MediaState) (pl : PlayerState)
    (hm : s.activeMedia = some m) (hpl : s.player = some pl)
    (hc : pl.forPost = m.post._id) :
    (∀ q, L.get? (m.index + 1) = some q → isMediaPost q.type = true →
      q._id ≠ m.post._id →
      navNextOpV1 L s = some ⟨some ⟨q, m.index + 1, MediaMode.modal, some 0⟩,
        none, some ⟨true, 0, q._id⟩⟩) ∧
    (∀ q, 1 ≤ m.index → L.get? (m.index - 1) = some q → isMediaPost q.type = true →
      q._id ≠ m.post._id →
      navPrevOpV1 L s = some ⟨some ⟨q, m.index - 1, MediaMode.modal, some 0⟩,
        none, some ⟨true, 0, q._id⟩⟩) := by
  obtain ⟨am, amod, pls⟩ := s
  subst hm; subst hpl
  constructor
  · intro q hq hmedia hid
    have hlt : m.index + 1 < L.length := (List.get?_eq_some.mp hq).1
    have hguard : ¬ ((m.index : Int) ≥ (L.length : Int) - 1) := by
      omega
    simp only [navNextOpV1, handleNextV1, currentIndexV1]
    rw [if_neg hguard, hq]
    simp [runEffects, hc, hid, Ne.symm hid, hmedia]
  · intro q hge hq hmedia hid
    have hguard : ¬ ((m.index : Int) ≤ 0) := by
      omega
    simp only [navPrevOpV1, handlePrevV1, currentIndexV1]
    rw [if_neg hguard, hq]
    simp [runEffects, hc, hid, Ne.symm hid, hmedia]

/-- Claim C7: for every list and in-range position `p < L.length - 1`,
stepping next from `p` and then prev from `p + 1` returns to position `p`
with the same item. -/
theorem C7_round_trip
    (L : List Post) (p : Nat) (itm : Post)
    (h : L.get? p = some itm) (h2 : p + 1 < L.length) :
    (∃ nxt, navStepNext L (p : Int) = NavResult.goto ((p : Int) + 1) nxt ∧
      L.get? (p + 1) = some nxt) ∧
    navStepPrev L ((p : Int) + 1) = NavResult.goto (p : Int) itm := by
  obtain ⟨nxt, hnxt⟩ : ∃ x, L.get? (p + 1) = some x := by
    rw [List.get?_eq_get h2]; exact ⟨_, rfl⟩
  have hguard : ¬ ((p : Int) ≥ (L.length : Int) - 1) := by omega
  have hguard2 : ¬ ((p : Int) + 1 ≤ 0) := by omega
  constructor
  · refine ⟨nxt, ?_, hnxt⟩
    have : jsIndex L ((p : Int) + 1) = some nxt := by
      simp only [jsIndex]
      rw [if_neg (by omega)]
      have : ((p : Int) + 1).toNat = p + 1 := by omega
      rw [this, hnxt]
    simp [navStepNext, hguard, this]
  · have hidx : jsIndex L (p : Int) = some itm := by
      simp only [jsIndex]
      rw [if_neg (by omega)]
      simpa using h
    have harg : ((p : Int) + 1 - 1) = (p : Int) := by ring
    simp [navStepPrev, hguard2, harg, hidx]

/-- Claim C10: clicking a card whose identifier does not occur in the
current filtered list is a complete no-op in both variants: the whole
application state is unchanged. -/
theorem C10_click_missing_id_noop
    (L : List Post) (post : Post) (s : AppState)
    (hcons : consistentB s = true)
    (hid : ∀ q ∈ L, q._id ≠ post._id) :
    clickOpV1 L post s = s ∧ clickOpV2 L post s = s := by
  have hfind := findIndexById_eq_none L post hid
  constructor
  · rw [clickOpV1, handleCardClickV1, hfind]
    exact runEffects_consistent s hcons
  · rw [clickOpV2, handleCardClickV2, hfind]
    exact runEffects_consistent s hcons

theorem reportElapsedOp_activeMedia (t : Nat) (s : AppState) :
    (reportElapsedOp t s).activeMedia = s.activeMedia := by
  unfold reportElapsedOp
  split <;> rfl

theorem togglePlayOp_activeMedia (s : AppState) :
    (togglePlayOp s).activeMedia = s.activeMedia := by
  unfold togglePlayOp
  split <;> rfl

theorem handleCardClickV1_cases (L : List Post) (post : Post) (s : AppState) :
    handleCardClickV1 L post s = s ∨
    (isMediaPost post.type = true ∧ ∃ idx,
      handleCardClickV1 L post s =
        { s with activeMedia := some ⟨post, idx, MediaMode.modal,
                   some (post.initialTime.getD 0)⟩,
                 activeModal := none }) ∨
    (isMediaPost post.type = true ∧ ∃ prev, s.activeMedia = some prev ∧
      handleCardClickV1 L post s =
        { s with activeMedia := some { prev with mode := MediaMode.modal },
                 activeModal := none }) ∨
    (∃ idx, handleCardClickV1 L post s = { s with activeModal := some ⟨post, idx⟩ }) := by
  cases hfind : findIndexById L post with
  | none =>
    left
    simp [handleCardClickV1, hfind]
  | some index =>
    by_cases hmedia : isMediaPost post.type = true
    · cases hsm : s.activeMedia with
      | none =>
        refine Or.inr (Or.inl ⟨hmedia, index, ?_⟩)
        simp [handleCardClickV1, hfind, hmedia, hsm]
      | some prev =>
        by_cases hcond : prev.post._id = post._id ∧ prev.mode = MediaMode.minimized
        · refine Or.inr (Or.inr (Or.inl ⟨hmedia, prev, rfl, ?_⟩))
          simp [handleCardClickV1, hfind, hmedia, hsm, hcond]
        · refine Or.inr (Or.inl ⟨hmedia, index, ?_⟩)
          simp [handleCardClickV1, hfind, hmedia, hsm, hcond]
    · refine Or.inr (Or.inr (Or.inr ⟨index, ?_⟩))
      simp [handleCardClickV1, hfind, hmedia]

theorem handleNextV1_cases (L : List Post) (s : AppState) :
    handleNextV1 L s = some s ∨ handleNextV1 L s = none ∨
    (∃ q p, isMediaPost q.type = true ∧
      handleNextV1 L s =
        some { s with activeMedia := some ⟨q, p + 1, MediaMode.modal, some 0⟩,
                      activeModal := none }) ∨
    (∃ q p, handleNextV1 L s = some { s with activeModal := some ⟨q, p + 1⟩ }) := by
  cases hci : currentIndexV1 s with
  | none =>
    left
    simp [handleNextV1, hci]
  | some p =>
    by_cases hguard : (p : Int) ≥ (L.length : Int) - 1
    · left
      simp [handleNextV1, hci, hguard]
    · cases hq : L.get? (p + 1) with
      | none =>
        right; left
        rw [List.get?_eq_getElem?] at hq
        simp [handleNextV1, hci, hguard, hq]
      | some q =>
        rw [List.get?_eq_getElem?] at hq
        by_cases hmedia : isMediaPost q.type = true
        · refine Or.inr (Or.inr (Or.inl ⟨q, p, hmedia, ?_⟩))
          simp [handleNextV1, hci, hguard, hq, hmedia]
        · refine Or.inr (Or.inr (Or.inr ⟨q, p, ?_⟩))
          simp [handleNextV1, hci, hguard, hq, hmedia]

theorem handlePrevV1_cases (L : List Post) (s : AppState) :
    handlePrevV1 L s = some s ∨ handlePrevV1 L s = none ∨
    (∃ q p, isMediaPost q.type = true ∧
      handlePrevV1 L s =
        some { s with activeMedia := some ⟨q, p - 1, MediaMode.modal, some 0⟩,
                      activeModal := none }) ∨
    (∃ q p, handlePrevV1 L s = some { s with activeModal := some ⟨q, p - 1⟩ }) := by
  cases hci : currentIndexV1 s with
  | none =>
    left
    simp [handlePrevV1, hci]
  | some p =>
    by_cases hguard : (p : Int) ≤ 0
    · left
      simp [handlePrevV1, hci, hguard]
    · cases hq : L.get? (p - 1) with
      | none =>
        right; left
        rw [List.get?_eq_getElem?] at hq
        simp [handlePrevV1, hci, hguard, hq]
      | some q =>
        rw [List.get?_eq_getElem?] at hq
        by_cases hmedia : isMediaPost q.type = true
        · refine Or.inr (Or.inr (Or.inl ⟨q, p, hmedia, ?_⟩))
          simp [handlePrevV1, hci, hguard, hq, hmedia]
        · refine Or.inr (Or.inr (Or.inr ⟨q, p, ?_⟩))
          simp [handlePrevV1, hci, hguard, hq, hmedia]

/-- Invariant: along every reachable state of the mock variant, the active
media slot only ever holds a playable (audio/video) post. -/
theorem reachable_media_playable {s : AppState} (h : Reachable s) :
    ∀ m, s.activeMedia = some m → isMediaPost m.post.type = true := by
  induction h with
  | init =>
    intro m hm
    exact absurd hm (by simp [initState])
  | click L post s hs ih =>
    intro m hm
    rw [clickOpV1, runEffects_activeMedia] at hm
    rcases handleCardClickV1_cases L post s with h | ⟨hm1, idx, h⟩ | ⟨hm1, prev, hprev, h⟩ |
      ⟨idx, h⟩ <;> rw [h] at hm
    · exact ih m hm
    · obtain ⟨am, amod, pls⟩ := s
      simp only [Option.some.injEq] at hm
      subst hm
      exact hm1
    · obtain ⟨am, amod, pls⟩ := s
      simp only [Option.some.injEq] at hm
      subst hm
      simpa using ih prev hprev
    · obtain ⟨am, amod, pls⟩ := s
      exact ih m hm
  | nxt L s s' hs heq ih =>
    intro m hm
    rw [navNextOpV1] at heq
    rcases handleNextV1_cases L s with h | h | ⟨q, p, hmedia, h⟩ | ⟨q, p, h⟩ <;>
      rw [h] at heq
    · obtain rfl : runEffects s = s' := by simpa using heq
      rw [runEffects_activeMedia] at hm
      exact ih m hm
    · exact absurd heq (by simp)
    · obtain rfl : _ = s' := by simpa using heq
      rw [runEffects_activeMedia] at hm
      obtain ⟨am, amod, pls⟩ := s
      simp only [Option.some.injEq] at hm
      subst hm
      exact hmedia
    · obtain rfl : _ = s' := by simpa using heq
      rw [runEffects_activeMedia] at hm
      obtain ⟨am, amod, pls⟩ := s
      exact ih m hm
  | prv L s s' hs heq ih =>
    intro m hm
    rw [navPrevOpV1] at heq
    rcases handlePrevV1_cases L s with h | h | ⟨q, p, hmedia, h⟩ | ⟨q, p, h⟩ <;>
      rw [h] at heq
    · obtain rfl : runEffects s = s' := by simpa using heq
      rw [runEffects_activeMedia] at hm
      exact ih m hm
    · exact absurd heq (by simp)
    · obtain rfl : _ = s' := by simpa using heq
      rw [runEffects_activeMedia] at hm
      obtain ⟨am, amod, pls⟩ := s
      simp only [Option.some.injEq] at hm
      subst hm
      exact hmedia
    · obtain rfl : _ = s' := by simpa using heq
      rw [runEffects_activeMedia] at hm
      obtain ⟨am, amod, pls⟩ := s
      exact ih m hm
  | minim s hs ih =>
    intro m hm
    rw [minimizeOp, runEffects_activeMedia] at hm
    obtain ⟨am, amod, pls⟩ := s
    cases am with
    | none => exact absurd hm (by simp)
    | some m0 =>
      have hm2 : { m0 with mode := MediaMode.minimized } = m := by simpa using hm
      subst hm2
      simpa using ih m0 rfl
  | restoreStep s hs ih =>
    intro m hm
    rw [restoreOp, runEffects_activeMedia] at hm
    obtain ⟨am, amod, pls⟩ := s
    cases am with
    | none => exact absurd hm (by simp)
    | some m0 =>
      have hm2 : { m0 with mode := MediaMode.modal } = m := by simpa using hm
      subst hm2
      simpa using ih m0 rfl
  | closeMedia s hs ih =>
    intro m hm
    rw [closeMediaOp, runEffects_activeMedia] at hm
    exact absurd hm (by simp)
  | closeModal s hs ih =>
    intro m hm
    rw [closeModalOp, runEffects_activeMedia] at hm
    exact ih m hm
  | elapsedTick t s hs ih =>
    intro m hm
    rw [reportElapsedOp_activeMedia] at hm
    exact ih m hm
  | toggle s hs ih =>
    intro m hm
    rw [togglePlayOp_activeMedia] at hm
    exact ih m hm


theorem jsIndex_some_bounds (L : List Post) (i : Int) (x : Post)
    (h : jsIndex L i = some x) : 0 ≤ i ∧ i < (L.length : Int) := by
  unfold jsIndex at h
  split at h
  · exact absurd h (by simp)
  · rename_i hneg
    have := (List.get?_eq_some.mp h).1
    omega

theorem jsIndex_of_le (L : List Post) (i : Int) (h : (L.length : Int) ≤ i) :
    jsIndex L i = none := by
  unfold jsIndex
  rw [if_neg (by omega)]
  exact List.get?_eq_none.mpr (by omega)

theorem jsIndex_neg (L : List Post) (i : Int) (h : i < 0) : jsIndex L i = none := by
  unfold jsIndex
  exact if_pos h

/-- Claim C3, counterexample: at the out-of-range position `-2` the next-step
logic passes the guard (`-2 >= length - 1` is false), reads the missing
element `L[-1]` and dereferences it — an uncaught TypeError, not a no-op. -/
theorem C3_counterexample :
    navStepNext demoL (-2) = NavResult.crash ∧
    navStepNext demoL (-2) ≠ NavResult.noop := by decide

/-- Claim C3, amended: Next is a no-op whenever `p >= L.length - 1` and Prev
whenever `p <= 0`; any successful step moves to the adjacent in-range
position (never wraps); but out-of-range positions are not uniformly safe
no-ops: Next from `p <= -2` and Prev from `p >= L.length + 1` dereference a
missing element and throw, while on a nonempty list Next from `p = -1`
(resp. Prev from `p = L.length`) navigates into range, to position `0`
(resp. `L.length - 1`), instead of no-opping. -/
theorem C3_amended_navigation_bounds (L : List Post) (p : Int) :
    (p ≥ (L.length : Int) - 1 → navStepNext L p = NavResult.noop) ∧
    (p ≤ 0 → navStepPrev L p = NavResult.noop) ∧
    (∀ q post, navStepNext L p = NavResult.goto q post →
      q = p + 1 ∧ 0 ≤ q ∧ q < (L.length : Int) ∧ jsIndex L q = some post) ∧
    (∀ q post, navStepPrev L p = NavResult.goto q post →
      q = p - 1 ∧ 0 ≤ q ∧ q < (L.length : Int) ∧ jsIndex L q = some post) ∧
    (p ≤ -2 → navStepNext L p = NavResult.crash) ∧
    (p ≥ (L.length : Int) + 1 → navStepPrev L p = NavResult.crash) ∧
    (1 ≤ L.length → p = -1 →
      ∃ x, jsIndex L 0 = some x ∧ navStepNext L p = NavResult.goto 0 x) ∧
    (1 ≤ L.length → p = (L.length : Int) →
      ∃ x, jsIndex L ((L.length : Int) - 1) = some x ∧
        navStepPrev L p = NavResult.goto ((L.length : Int) - 1) x) := by
  refine ⟨?_, ?_, ?_, ?_, ?_, ?_, ?_, ?_⟩
  · intro h; simp [navStepNext, h]
  · intro h; simp [navStepPrev, h]
  · intro q post h
    unfold navStepNext at h
    split at h
    · exact absurd h (by simp)
    · cases hj : jsIndex L (p + 1) with
      | none => rw [hj] at h; exact absurd h (by simp)
      | some x =>
        rw [hj] at h
        have hb := jsIndex_some_bounds L (p + 1) x hj
        obtain ⟨rfl, rfl⟩ : q = p + 1 ∧ post = x := by
          constructor <;> [exact (NavResult.goto.injEq _ _ _ _).mp h |>.1.symm;
            exact ((NavResult.goto.injEq _ _ _ _).mp h).2.symm]
        exact ⟨rfl, hb.1, hb.2, hj⟩
  · intro q post h
    unfold navStepPrev at h
    split at h
    · exact absurd h (by simp)
    · cases hj : jsIndex L (p - 1) with
      | none => rw [hj] at h; exact absurd h (by simp)
      | some x =>
        rw [hj] at h
        have hb := jsIndex_some_bounds L (p - 1) x hj
        obtain ⟨rfl, rfl⟩ : q = p - 1 ∧ post = x := by
          constructor <;> [exact (NavResult.goto.injEq _ _ _ _).mp h |>.1.symm;
            exact ((NavResult.goto.injEq _ _ _ _).mp h).2.symm]
        exact ⟨rfl, hb.1, hb.2, hj⟩
  · intro h
    have hguard : ¬ (p ≥ (L.length : Int) - 1) := by omega
    simp only [navStepNext, hguard, if_false]
    rw [jsIndex_neg L (p + 1) (by omega)]
  · intro h
    have hguard : ¬ (p ≤ 0) := by omega
    simp only [navStepPrev, hguard, if_false]
    rw [jsIndex_of_le L (p - 1) (by omega)]
  · intro hlen hp
    subst hp
    obtain ⟨x, hx⟩ : ∃ x, L.get? 0 = some x := by
      rw [List.get?_eq_get (by omega)]
      exact ⟨_, rfl⟩
    have hjs : jsIndex L 0 = some x := by
      unfold jsIndex
      rw [if_neg (by omega)]
      simpa using hx
    refine ⟨x, hjs, ?_⟩
    have hguard : ¬ ((-1 : Int) ≥ (L.length : Int) - 1) := by omega
    have harg : (-1 : Int) + 1 = 0 := by norm_num
    simp only [navStepNext, hguard, if_false, harg, hjs]
  · intro hlen hp
    subst hp
    obtain ⟨x, hx⟩ : ∃ x, L.get? (L.length - 1) = some x := by
      rw [List.get?_eq_get (by omega)]
      exact ⟨_, rfl⟩
    have hjs : jsIndex L ((L.length : Int) - 1) = some x := by
      unfold jsIndex
      rw [if_neg (by omega)]
      have ht : ((L.length : Int) - 1).toNat = L.length - 1 := by omega
      rw [ht, hx]
    refine ⟨x, hjs, ?_⟩
    have hguard : ¬ ((L.length : Int) ≤ 0) := by omega
    simp only [navStepPrev, hguard, if_false, hjs]

/-- Claim C3, witness. -/
theorem C3_witness :
    navStepNext demoL 2 = NavResult.noop ∧ navStepPrev demoL 0 = NavResult.noop ∧
    (∃ x, jsIndex demoL 0 = some x ∧ navStepNext demoL (-1) = NavResult.goto 0 x) :=
  ⟨(C3_amended_navigation_bounds demoL 2).1 (by decide),
   (C3_amended_navigation_bounds demoL 0).2.1 (by decide),
   (C3_amended_navigation_bounds demoL (-1)).2.2.2.2.2.2.1 (by decide) (by decide)⟩

theorem containsSub_nil_left (h : List Char) : containsSub [] h = true := by
  cases h <;> simp [containsSub, List.isPrefixOf]

theorem containsSub_nonempty_nil (c : Char) (t : List Char) :
    containsSub (c :: t) [] = false := rfl

theorem toLowerCaseJs_data (s : String) :
    (toLowerCaseJs s).data = s.data.map Char.toLower := rfl

theorem toLowerCaseJs_ne_empty (q : String) (h : q ≠ "") :
    (toLowerCaseJs q).data ≠ [] := by
  rw [toLowerCaseJs_data]
  intro habs
  apply h
  have hdata : q.data = [] := by simpa using habs
  cases q with
  | mk d =>
    simp only at hdata
    subst hdata
    rfl

theorem fieldHit_eq (f : Option String) (q : String) (hq : q ≠ "") :
    fieldHit f (toLowerCaseJs q) =
      (match f with
       | none => false
       | some s => jsIncludes (toLowerCaseJs s) (toLowerCaseJs q)) := by
  cases f with
  | none => rfl
  | some s =>
    by_cases hs : s = ""
    · subst hs
      have hne := toLowerCaseJs_ne_empty q hq
      simp only [fieldHit, jsIncludes]
      cases hd : (toLowerCaseJs q).data with
      | nil => exact absurd hd hne
      | cons c t => simp [containsSub_nonempty_nil, toLowerCaseJs]
    · simp [fieldHit, hs]

theorem matchesCI_empty (p : Post) : matchesCI p "" = true := by
  have : jsIncludes (toLowerCaseJs p.title) (toLowerCaseJs "") = true := by
    simp [jsIncludes, toLowerCaseJs, containsSub_nil_left]
  simp [matchesCI, this]

theorem postMatches_eq_matchesCI (p : Post) (q : String) (hq : q ≠ "") :
    postMatches p (toLowerCaseJs q) = matchesCI p q := by
  simp only [postMatches, matchesCI, fieldHit_eq _ q hq]

/-- Claim C6: the search filter returns the whole catalog on the empty
query, keeps exactly the posts whose title, description, note body or quote
text contains the query case-insensitively, and preserves the catalog
order (its result is a sublist of the catalog). -/
theorem C6_filter_correctness (cat : List Post) (q : String) :
    filteredPosts cat "" = cat ∧
    (∀ p, p ∈ filteredPosts cat q ↔ (p ∈ cat ∧ matchesCI p q = true)) ∧
    List.Sublist (filteredPosts cat q) cat := by
  refine ⟨by simp [filteredPosts], ?_, ?_⟩
  · intro p
    by_cases hq : q = ""
    · subst hq
      simp [filteredPosts, matchesCI_empty]
    · simp [filteredPosts, hq, List.mem_filter, postMatches_eq_matchesCI _ q hq]
  · by_cases hq : q = ""
    · subst hq
      simp [filteredPosts]
    · simp only [filteredPosts, hq, if_false]
      exact List.filter_sublist cat

/-- Claim C2, counterexample: from the initial state, opening the audio post
and then opening the note post leaves BOTH items active at once (the media
player even stays in full-screen mode), so the second `openItem` does not
replace the first. -/
theorem C2_counterexample :
    (clickOpV1 demoL noteP (clickOpV1 demoL audioP initState)).activeMedia
      = some ⟨audioP, 0, MediaMode.modal, some 0⟩ ∧
    (clickOpV1 demoL noteP (clickOpV1 demoL audioP initState)).activeModal
      = some ⟨noteP, 1⟩ := by decide

/-- Claim C2, amended: each of the two active-item slots is atomically
replaced — opening a playable item updates the media slot to hold exactly
the clicked item in FullScreen mode (the existing record with its mode
flipped when it is the same item currently minimized, otherwise a fresh
record) and clears the modal slot, while opening a non-playable item fills
the modal slot but leaves the media slot (and hence a possibly playing
item) untouched. -/
theorem C2_amended_slot_replacement (L : List Post) (post : Post) (s : AppState)
    (idx : Nat) (hfind : findIndexById L post = some idx) :
    (isMediaPost post.type = true →
      (clickOpV1 L post s).activeModal = none ∧
      ((∃ prev, s.activeMedia = some prev ∧ prev.post._id = post._id ∧
          prev.mode = MediaMode.minimized ∧
          (clickOpV1 L post s).activeMedia = some { prev with mode := MediaMode.modal }) ∨
        (clickOpV1 L post s).activeMedia =
          some ⟨post, idx, MediaMode.modal, some (post.initialTime.getD 0)⟩)) ∧
    (isMediaPost post.type = false →
      (clickOpV1 L post s).activeModal = some ⟨post, idx⟩ ∧
      (clickOpV1 L post s).activeMedia = s.activeMedia) := by
  constructor
  · intro hmedia
    constructor
    · rw [clickOpV1, runEffects_activeModal]
      cases hsm : s.activeMedia with
      | none => simp [handleCardClickV1, hfind, hmedia, hsm]
      | some prev =>
        by_cases hcond : prev.post._id = post._id ∧ prev.mode = MediaMode.minimized
        · simp [handleCardClickV1, hfind, hmedia, hsm, hcond]
        · simp [handleCardClickV1, hfind, hmedia, hsm, hcond]
    · rw [clickOpV1, runEffects_activeMedia]
      cases hsm : s.activeMedia with
      | none =>
        right
        simp [handleCardClickV1, hfind, hmedia, hsm]
      | some prev =>
        by_cases hcond : prev.post._id = post._id ∧ prev.mode = MediaMode.minimized
        · left
          refine ⟨prev, rfl, hcond.1, hcond.2, ?_⟩
          simp [handleCardClickV1, hfind, hmedia, hsm, hcond]
        · right
          simp [handleCardClickV1, hfind, hmedia, hsm, hcond]
  · intro hmedia
    have hm' : ¬ (isMediaPost post.type = true) := by simp [hmedia]
    constructor
    · rw [clickOpV1, runEffects_activeModal]
      simp [handleCardClickV1, hfind, hm']
    · rw [clickOpV1, runEffects_activeMedia]
      simp [handleCardClickV1, hfind, hm']

/-- Claim C2, witness. -/
theorem C2_witness :
    (clickOpV1 demoL audioP initState).activeModal = none ∧
    (clickOpV1 demoL noteP initState).activeModal = some ⟨noteP, 1⟩ :=
  ⟨((C2_amended_slot_replacement demoL audioP initState 0 (by decide)).1 (by decide)).1,
   ((C2_amended_slot_replacement demoL noteP initState 1 (by decide)).2 (by decide)).1⟩

/-- Claim C4, counterexample: re-opening the SAME playable item while it is
already active in FullScreen (`'modal'`) mode falls into the claim's "every
other case", yet the live transport is NOT re-initialised to
`elapsed = initialTime ?? 0 = 0, isPlaying = true`: the player is keyed on
`post._id`, so the elapsed time (here 42 s) carries over. -/
theorem C4_counterexample :
    (clickOpV1 demoL audioP ⟨some ⟨audioP, 0, MediaMode.modal, some 0⟩, none,
        some ⟨true, 42, "a1"⟩⟩).player = some ⟨true, 42, "a1"⟩ ∧
    (clickOpV1 demoL audioP ⟨some ⟨audioP, 0, MediaMode.modal, some 0⟩, none,
        some ⟨true, 42, "a1"⟩⟩).player ≠
      some ⟨true, audioP.initialTime.getD 0, audioP._id⟩ := by decide

/-- Claim C4, amended: opening the same playable item again switches it to
FullScreen preserving transport whether it was Minimized (record untouched
apart from the mode) or already FullScreen (record rebuilt, live transport
still preserved, because the player is keyed on the item id); opening a
playable item that is not the currently active one — including from the
Closed state with nothing active — replaces the active media item entirely
with FullScreen and transport `isPlaying = true, elapsed = initialTime ?? 0`;
opening a non-playable item fills the modal slot and leaves the active
media item and its transport untouched. -/
theorem C4_amended_open_item (L : List Post) (s : AppState)
    (hcons : consistentB s = true) :
    (∀ A idx m, isMediaPost A.type = true → findIndexById L A = some idx →
      s.activeMedia = some m → m.post._id = A._id → m.mode = MediaMode.minimized →
      clickOpV1 L A s = ⟨some { m with mode := MediaMode.modal }, none, s.player⟩) ∧
    (∀ A idx m, isMediaPost A.type = true → findIndexById L A = some idx →
      s.activeMedia = some m → m.post._id = A._id → m.mode = MediaMode.modal →
      clickOpV1 L A s = ⟨some ⟨A, idx, MediaMode.modal, some (A.initialTime.getD 0)⟩,
        none, s.player⟩) ∧
    (∀ A idx, isMediaPost A.type = true → findIndexById L A = some idx →
      (∀ m, s.activeMedia = some m → m.post._id ≠ A._id) →
      clickOpV1 L A s = ⟨some ⟨A, idx, MediaMode.modal, some (A.initialTime.getD 0)⟩,
        none, some ⟨true, A.initialTime.getD 0, A._id⟩⟩) ∧
    (∀ B idx, isMediaPost B.type = false → findIndexById L B = some idx →
      clickOpV1 L B s = ⟨s.activeMedia, some ⟨B, idx⟩, s.player⟩) := by
  obtain ⟨am, amod, pls⟩ := s
  refine ⟨?_, ?_, ?_, ?_⟩
  · intro A idx m hmedia hfind hm hid hmode
    simp only at hm
    subst hm
    obtain ⟨pl, rfl, hc⟩ : ∃ pl, pls = some pl ∧ pl.forPost = m.post._id := by
      cases pls with
      | none => simp [consistentB] at hcons
      | some pl => exact ⟨pl, rfl, by simpa [consistentB] using hcons⟩
    have hcond : m.post._id = A._id ∧ m.mode = MediaMode.minimized := ⟨hid, hmode⟩
    simp [clickOpV1, handleCardClickV1, hfind, hmedia, hcond, runEffects, hc, hid]
  · intro A idx m hmedia hfind hm hid hmode
    simp only at hm
    subst hm
    obtain ⟨pl, rfl, hc⟩ : ∃ pl, pls = some pl ∧ pl.forPost = m.post._id := by
      cases pls with
      | none => simp [consistentB] at hcons
      | some pl => exact ⟨pl, rfl, by simpa [consistentB] using hcons⟩
    have hcond : ¬ (m.post._id = A._id ∧ m.mode = MediaMode.minimized) := by
      rw [hmode]; simp
    simp [clickOpV1, handleCardClickV1, hfind, hmedia, hcond, hmode, runEffects, hc, hid]
  · intro A idx hmedia hfind hdiff
    cases am with
    | none =>
      obtain rfl : pls = none := by
        cases pls with
        | none => rfl
        | some pl => simp [consistentB] at hcons
      simp [clickOpV1, handleCardClickV1, hfind, hmedia, runEffects]
    | some m =>
      obtain ⟨pl, rfl, hc⟩ : ∃ pl, pls = some pl ∧ pl.forPost = m.post._id := by
        cases pls with
        | none => simp [consistentB] at hcons
        | some pl => exact ⟨pl, rfl, by simpa [consistentB] using hcons⟩
      have hid : m.post._id ≠ A._id := hdiff m rfl
      have hcond : ¬ (m.post._id = A._id ∧ m.mode = MediaMode.minimized) := by
        simp [hid]
      have hne : pl.forPost ≠ A._id := by rw [hc]; exact hid
      simp [clickOpV1, handleCardClickV1, hfind, hmedia, hcond, runEffects, hne]
  · intro B idx hmedia hfind
    have hm' : ¬ (isMediaPost B.type = true) := by simp [hmedia]
    cases am with
    | none =>
      obtain rfl : pls = none := by
        cases pls with
        | none => rfl
        | some pl => simp [consistentB] at hcons
      simp [clickOpV1, handleCardClickV1, hfind, hm', runEffects]
    | some m =>
      obtain ⟨pl, rfl, hc⟩ : ∃ pl, pls = some pl ∧ pl.forPost = m.post._id := by
        cases pls with
        | none => simp [consistentB] at hcons
        | some pl => exact ⟨pl, rfl, by simpa [consistentB] using hcons⟩
      simp [clickOpV1, handleCardClickV1, hfind, hm', runEffects, hc]

/-- Claim C4, witness: re-opening the minimized audio item restores it to
FullScreen with the live transport (elapsed 12 s) preserved, and a fresh
open from the Closed state initializes the transport to
`isPlaying = true, elapsed = initialTime ?? 0`. -/
theorem C4_witness :
    clickOpV1 demoL audioP ⟨some ⟨audioP, 0, MediaMode.minimized, some 0⟩, none,
        some ⟨true, 12, "a1"⟩⟩ =
      ⟨some ⟨audioP, 0, MediaMode.modal, some 0⟩, none, some ⟨true, 12, "a1"⟩⟩ ∧
    clickOpV1 demoL audioP initState =
      ⟨some ⟨audioP, 0, MediaMode.modal, some 0⟩, none, some ⟨true, 0, "a1"⟩⟩ :=
  ⟨(C4_amended_open_item demoL
      ⟨some ⟨audioP, 0, MediaMode.minimized, some 0⟩, none, some ⟨true, 12, "a1"⟩⟩
      (by decide)).1 audioP 0 ⟨audioP, 0, MediaMode.minimized, some 0⟩
      (by decide) (by decide) rfl rfl rfl,
   (C4_amended_open_item demoL initState (by decide)).2.2.1 audioP 0
      (by decide) (by decide) (fun m h => absurd h (by simp [initState]))⟩

/-- Claim C8: in every reachable state the Minimized mode only occurs on a
playable (audio/video) active item; opening a non-playable item and then
calling minimize leaves that item in the full-screen modal slot (and when no
media player is mounted, minimize is a complete no-op). -/
theorem C8_minimized_only_playable :
    (∀ s m, Reachable s → s.activeMedia = some m →
      m.mode = MediaMode.minimized → isMediaPost m.post.type = true) ∧
    (∀ (s : AppState) (L : List Post) (post : Post) (idx : Nat),
      isMediaPost post.type = false → findIndexById L post = some idx →
      (minimizeOp (clickOpV1 L post s)).activeModal = some ⟨post, idx⟩) ∧
    (∀ (s : AppState) (L : List Post) (post : Post) (idx : Nat),
      isMediaPost post.type = false → findIndexById L post = some idx →
      s.activeMedia = none →
      minimizeOp (clickOpV1 L post s) = clickOpV1 L post s) := by
  refine ⟨?_, ?_, ?_⟩
  · intro s m hr hm _
    exact reachable_media_playable hr m hm
  · intro s L post idx hmedia hfind
    have h1 : (minimizeOp (clickOpV1 L post s)).activeModal
        = (clickOpV1 L post s).activeModal := by
      rw [minimizeOp, runEffects_activeModal]
    rw [h1]
    have hm' : ¬ (isMediaPost post.type = true) := by simp [hmedia]
    rw [clickOpV1, runEffects_activeModal]
    simp [handleCardClickV1, hfind, hm']
  · intro s L post idx hmedia hfind hnone
    have hm' : ¬ (isMediaPost post.type = true) := by simp [hmedia]
    obtain ⟨am, amod, pls⟩ := s
    simp only at hnone
    subst hnone
    simp [clickOpV1, handleCardClickV1, hfind, hm', runEffects, minimizeOp]

/-- Claim C8, witness. -/
theorem C8_witness :
    isMediaPost audioP.type = true ∧
    (minimizeOp (clickOpV1 demoL noteP initState)).activeModal = some ⟨noteP, 1⟩ :=
  ⟨C8_minimized_only_playable.1 (minimizeOp (clickOpV1 demoL audioP initState))
      ⟨audioP, 0, MediaMode.minimized, some 0⟩
      (Reachable.minim _ (Reachable.click demoL audioP initState Reachable.init))
      (by decide) rfl,
   C8_minimized_only_playable.2.1 initState demoL noteP 1 (by decide) (by decide)⟩

/-- Claim C9, counterexample: from the initial state, open the audio post,
then click the note post.  The mock variant leaves the media player in
full-screen (`'modal'`) mode while the remote-API variant minimizes it, so
the two variants' handlers produce different active-item state. -/
theorem C9_counterexample :
    (clickOpV1 demoL noteP (clickOpV1 demoL audioP initState)).activeMedia ≠
    (clickOpV2 demoL noteP (clickOpV2 demoL audioP initState)).activeMedia := by decide

/-- Claim C9, amended: the two variants share the card-click logic for
playable posts and agree on navigation, in both directions, from a
full-screen media item to a playable neighbour; but their handlers are not
equivalent in general: opening a non-playable post minimizes a full-screen
media player only in the remote-API variant (the counterexample), and with
a minimized media player and no modal open the mock variant still navigates
from the player's position while the remote-API variant does nothing. -/
theorem C9_amended_variant_agreement (L : List Post) (s : AppState) :
    (∀ post, isMediaPost post.type = true → clickOpV1 L post s = clickOpV2 L post s) ∧
    (∀ m q, s.activeMedia = some m → m.mode = MediaMode.modal →
      L.get? (m.index + 1) = some q → isMediaPost q.type = true →
      navNextOpV1 L s = some (navOpV2 NavDir.next L s)) ∧
    (∀ m q, s.activeMedia = some m → m.mode = MediaMode.modal → 1 ≤ m.index →
      L.get? (m.index - 1) = some q → isMediaPost q.type = true →
      navPrevOpV1 L s = some (navOpV2 NavDir.prev L s)) ∧
    (∀ m, s.activeMedia = some m → m.mode = MediaMode.minimized → s.activeModal = none →
      handleNavigateV2 NavDir.next L s = s ∧
      (∀ q, L.get? (m.index + 1) = some q → isMediaPost q.type = true →
        handleNextV1 L s =
          some { s with activeMedia := some ⟨q, m.index + 1, MediaMode.modal, some 0⟩,
                        activeModal := none })) := by
  refine ⟨?_, ?_, ?_, ?_⟩
  · intro post hmedia
    rw [clickOpV1, clickOpV2]
    cases hfind : findIndexById L post with
    | none => simp [handleCardClickV1, handleCardClickV2, hfind]
    | some idx => simp [handleCardClickV1, handleCardClickV2, hfind, hmedia]
  · intro m q hm hmode hq hmedia
    obtain ⟨am, amod, pls⟩ := s
    subst hm
    have hlt : m.index + 1 < L.length := (List.get?_eq_some.mp hq).1
    have hguard1 : ¬ ((m.index : Int) ≥ (L.length : Int) - 1) := by omega
    have h1 : navNextOpV1 L ⟨some m, amod, pls⟩ =
        some (runEffects ⟨some ⟨q, m.index + 1, MediaMode.modal, some 0⟩, none, pls⟩) := by
      simp only [navNextOpV1, handleNextV1, currentIndexV1]
      rw [if_neg hguard1, hq]
      simp [hmedia]
    have hq' : L[m.index + 1]? = some q := by
      rw [← List.get?_eq_getElem?]; exact hq
    have ht : ((m.index : Int) + 1).toNat = m.index + 1 := by omega
    have hge0 : ¬ (((m.index : Int) + 1) < 0) := by omega
    have hge : ¬ (((m.index : Int) + 1) ≥ (L.length : Int)) := by omega
    have h2 : handleNavigateV2 NavDir.next L ⟨some m, amod, pls⟩ =
        ⟨some ⟨q, m.index + 1, MediaMode.modal, some 0⟩, none, pls⟩ := by
      simp [handleNavigateV2, currentIndexV2, newIndexV2, hmode, hge0, hge, ht, hq', hmedia]
    rw [h1, navOpV2, h2]
  · intro m q hm hmode hge1 hq hmedia
    obtain ⟨am, amod, pls⟩ := s
    subst hm
    have hlt : m.index - 1 < L.length := (List.get?_eq_some.mp hq).1
    have hguard1 : ¬ ((m.index : Int) ≤ 0) := by omega
    have h1 : navPrevOpV1 L ⟨some m, amod, pls⟩ =
        some (runEffects ⟨some ⟨q, m.index - 1, MediaMode.modal, some 0⟩, none, pls⟩) := by
      simp only [navPrevOpV1, handlePrevV1, currentIndexV1]
      rw [if_neg hguard1, hq]
      simp [hmedia]
    have hq' : L[m.index - 1]? = some q := by
      rw [← List.get?_eq_getElem?]; exact hq
    have ht : ((m.index : Int) - 1).toNat = m.index - 1 := by omega
    have hge0 : ¬ (((m.index : Int) - 1) < 0) := by omega
    have hgel : ¬ (((m.index : Int) - 1) ≥ (L.length : Int)) := by omega
    have h2 : handleNavigateV2 NavDir.prev L ⟨some m, amod, pls⟩ =
        ⟨some ⟨q, m.index - 1, MediaMode.modal, some 0⟩, none, pls⟩ := by
      simp [handleNavigateV2, currentIndexV2, newIndexV2, hmode, hge0, hgel, ht, hq', hmedia]
    rw [h1, navOpV2, h2]
  · intro m hm hmode hmodal
    obtain ⟨am, amod, pls⟩ := s
    subst hm
    simp only at hmodal
    subst hmodal
    constructor
    · simp [handleNavigateV2, currentIndexV2, hmode]
    · intro q hq hmedia
      have hlt : m.index + 1 < L.length := (List.get?_eq_some.mp hq).1
      have hguard : ¬ ((m.index : Int) ≥ (L.length : Int) - 1) := by omega
      simp only [handleNextV1, currentIndexV1]
      rw [if_neg hguard, hq]
      simp [hmedia]

/-- Claim C9, witness. -/
theorem C9_witness :
    clickOpV1 demoL2 audioP initState = clickOpV2 demoL2 audioP initState :=
  (C9_amended_variant_agreement demoL2 initState).1 audioP (by decide)

/-- Claim C1, witness: a concrete paused player at 12 s survives
minimize-then-restore unchanged. -/
theorem C1_witness :
    minimizeOp ⟨some ⟨audioP, 0, MediaMode.modal, some 0⟩, none,
        some ⟨false, 12, "a1"⟩⟩ =
      ⟨some ⟨audioP, 0, MediaMode.minimized, some 0⟩, none, some ⟨false, 12, "a1"⟩⟩ ∧
    restoreOp (minimizeOp ⟨some ⟨audioP, 0, MediaMode.modal, some 0⟩, none,
        some ⟨false, 12, "a1"⟩⟩) =
      ⟨some ⟨audioP, 0, MediaMode.modal, some 0⟩, none, some ⟨false, 12, "a1"⟩⟩ ∧
    (restoreOp (minimizeOp ⟨some ⟨audioP, 0, MediaMode.modal, some 0⟩, none,
        some ⟨false, 12, "a1"⟩⟩)).player = some ⟨false, 12, "a1"⟩ :=
  C1_minimize_restore_preserves_transport
    ⟨some ⟨audioP, 0, MediaMode.modal, some 0⟩, none, some ⟨false, 12, "a1"⟩⟩
    ⟨audioP, 0, MediaMode.modal, some 0⟩ ⟨false, 12, "a1"⟩ rfl rfl rfl

/-- Claim C5, witness: navigating next from the paused audio at 7 s to the
video restarts transport at `elapsed = 0, isPlaying = true`. -/
theorem C5_witness :
    navNextOpV1 demoL2 ⟨some ⟨audioP, 0, MediaMode.modal, some 0⟩, none,
        some ⟨false, 7, "a1"⟩⟩ =
      some ⟨some ⟨videoP, 1, MediaMode.modal, some 0⟩, none, some ⟨true, 0, "v1"⟩⟩ :=
  (C5_navigation_resets_transport demoL2
      ⟨some ⟨audioP, 0, MediaMode.modal, some 0⟩, none, some ⟨false, 7, "a1"⟩⟩
      ⟨audioP, 0, MediaMode.modal, some 0⟩ ⟨false, 7, "a1"⟩ rfl rfl rfl).1
    videoP (by decide) (by decide) (by decide)

/-- Claim C7, witness. -/
theorem C7_witness :
    (∃ nxt, navStepNext demoL2 ((0 : Nat) : Int) = NavResult.goto (((0 : Nat) : Int) + 1) nxt ∧
      demoL2.get? (0 + 1) = some nxt) ∧
    navStepPrev demoL2 (((0 : Nat) : Int) + 1) = NavResult.goto ((0 : Nat) : Int) audioP :=
  C7_round_trip demoL2 0 audioP (by decide) (by decide)

/-- Claim C10, witness. -/
theorem C10_witness :
    clickOpV1 demoL strangerP initState = initState ∧
    clickOpV2 demoL strangerP initState = initState :=
  C10_click_missing_id_noop demoL strangerP initState (by decide) (by decide)

end Inspiro
